import Mathlib

/-!
Shallow embedding of the bond-yield-curve report builder
(`format_bond_curve_data` and `get_china_bond_curve` from `server.py`).

Numeric observations are embedded as rationals; the square roots appearing
in the standard deviation and in the Pearson correlation coefficient live
in `ℝ`.  Dates are embedded as year/month/day triples, and the two
`strftime` formats of the source are embedded as string-producing
functions.  The pandas primitives used by the source (`mean`, `median`,
`var(ddof)`, `std(ddof)`, `quantile` with linear interpolation, `idxmax`,
`idxmin`, `corr`) are embedded by their documented semantics.
-/

namespace BondMCP

/-- A calendar date, as carried by the `日期` column. -/
structure Date where
  year : ℕ
  month : ℕ
  day : ℕ
deriving DecidableEq, Repr

/-- Chronological sort key of a date (dates compare by year, then month,
then day, which this key realises for month/day < 100). -/
def dateKey (d : Date) : ℕ := d.year * 10000 + d.month * 100 + d.day

/-- Left-pad the decimal representation of `n` with zeros to width `w`
(the behaviour of `%Y`, `%m`, `%d` in `strftime`). -/
def padNum (w : ℕ) (n : ℕ) : String :=
  let s := toString n
  if s.length < w then String.mk (List.replicate (w - s.length) '0') ++ s else s

/-- `strftime("%Y-%m-%d")`: the format used for `metadata.time_range`. -/
def fmtDash (d : Date) : String :=
  padNum 4 d.year ++ "-" ++ padNum 2 d.month ++ "-" ++ padNum 2 d.day

/-- `strftime("%Y%m%d")`: the format used for `daily_data[*].date`. -/
def fmtCompact (d : Date) : String :=
  padNum 4 d.year ++ padNum 2 d.month ++ padNum 2 d.day

/-- Round to the nearest integer, ties to even (the rounding used by
Python's builtin `round` and by numpy/pandas `round`). -/
def roundHE {α : Type} [LinearOrderedField α] [FloorRing α] (x : α) : ℤ :=
  let f : ℤ := ⌊x⌋
  let r : α := x - (f : α)
  if r < 1/2 then f
  else if 1/2 < r then f + 1
  else if f % 2 = 0 then f else f + 1

/-- `round(x, n)`: round `x` to `n` decimal places, ties to even. -/
def roundTo {α : Type} [LinearOrderedField α] [FloorRing α] (n : ℕ) (x : α) : α :=
  ((roundHE (x * 10 ^ n) : ℤ) : α) / 10 ^ n

/-- `Series.mean()`: arithmetic mean, sum divided by count. -/
def seriesMean (l : List ℚ) : ℚ := l.sum / (l.length : ℚ)

/-- Sum of squared deviations from the mean. -/
def sqDevSum (l : List ℚ) : ℚ :=
  (l.map (fun x => (x - seriesMean l) ^ 2)).sum

/-- `Series.var(ddof)`: sum of squared deviations divided by `N - ddof`. -/
def seriesVar (ddof : ℕ) (l : List ℚ) : ℚ :=
  sqDevSum l / ((l.length : ℚ) - (ddof : ℚ))

/-- The values sorted ascending. -/
def sortedVals (l : List ℚ) : List ℚ :=
  l.mergeSort (fun a b => decide (a ≤ b))

/-- `Series.quantile(q)` with the default `interpolation="linear"`:
with the values sorted ascending and `h = q * (N - 1)`, interpolate
linearly between positions `⌊h⌋` and `⌊h⌋ + 1`. -/
def quantileLinear (q : ℚ) (l : List ℚ) : ℚ :=
  let s := sortedVals l
  let h : ℚ := q * ((l.length : ℚ) - 1)
  let lo : ℕ := (⌊h⌋).toNat
  let x := s.getD lo 0
  x + (h - (lo : ℚ)) * (s.getD (lo + 1) x - x)

/-- `Series.median()`: middle element of the sorted values for odd count,
average of the two middle elements for even count. -/
def seriesMedian (l : List ℚ) : ℚ :=
  let s := sortedVals l
  let n := l.length
  if n % 2 = 1 then s.getD (n / 2) 0
  else (s.getD (n / 2 - 1) 0 + s.getD (n / 2) 0) / 2

/-- `Series.max()`. -/
def seriesMax (l : List ℚ) : ℚ := (l.max?).getD 0

/-- `Series.min()`. -/
def seriesMin (l : List ℚ) : ℚ := (l.min?).getD 0

/-- Whether `x` is a maximum of `l`. -/
def isMaxIn (l : List ℚ) (x : ℚ) : Bool := decide (∀ y ∈ l, y ≤ x)

/-- Whether `x` is a minimum of `l`. -/
def isMinIn (l : List ℚ) (x : ℚ) : Bool := decide (∀ y ∈ l, x ≤ y)

/-- `Series.idxmax()` on a positionally indexed series: the index of the
first occurrence of the maximum value. -/
def idxmaxFirst (l : List ℚ) : ℕ := l.findIdx (isMaxIn l)

/-- `Series.idxmin()` on a positionally indexed series: the index of the
first occurrence of the minimum value. -/
def idxminFirst (l : List ℚ) : ℕ := l.findIdx (isMinIn l)

/-- `Series.std(ddof)`: square root of `Series.var(ddof)`. -/
noncomputable def seriesStd (ddof : ℕ) (l : List ℚ) : ℝ :=
  Real.sqrt ((seriesVar ddof l : ℚ) : ℝ)

/-- Pearson correlation coefficient of two aligned columns, as computed
by `DataFrame.corr()` for each pair of columns: the sum of products of
deviations divided by the square roots of the two sums of squared
deviations. -/
noncomputable def pearson (x y : List ℚ) : ℝ :=
  let sxy : ℚ := ((x.zip y).map (fun p => (p.1 - seriesMean x) * (p.2 - seriesMean y))).sum
  ((sxy : ℚ) : ℝ) / (Real.sqrt ((sqDevSum x : ℚ) : ℝ) * Real.sqrt ((sqDevSum y : ℚ) : ℝ))

/-- One entry of `bond_yield_curve[terms].corr().round(3)`. -/
noncomputable def corrValue (x y : List ℚ) : ℝ := roundTo 3 (pearson x y)

/-- One element of a `daily_data` list. -/
structure DailyPoint where
  date : String
  yield : ℚ
deriving DecidableEq, Repr

/-- The `{value, date}` pair reported for an extremum. -/
structure ExtremeVal where
  value : ℚ
  date : String
deriving DecidableEq, Repr

/-- The `quantiles` sub-block. -/
structure Quantiles where
  q1 : ℚ
  q3 : ℚ
deriving DecidableEq, Repr

/-- The per-maturity `statistics` block. -/
structure Stats where
  max : ExtremeVal
  min : ExtremeVal
  mean : ℚ
  median : ℚ
  variance : ℚ
  std_dev : ℝ
  quantiles : Quantiles

/-- The `metadata` block of a successful report. -/
structure Metadata where
  curve_name : String
  time_range : List String
  currency : String
deriving DecidableEq, Repr

/-- One value of the `series` mapping. -/
structure SeriesEntry where
  daily_data : List DailyPoint
  statistics : Stats

/-- The `analysis` block: the correlation mapping, in insertion order. -/
structure Analysis where
  correlation : List (String × ℝ)

/-- A successful report. -/
structure Report where
  metadata : Metadata
  series : List (String × SeriesEntry)
  analysis : Option Analysis

/-- The filtered observation table handed to `format_bond_curve_data`:
the value columns (every column other than `日期`), and the rows, each a
date with one value per column, aligned with `terms`. -/
structure Table where
  terms : List String
  rows : List (Date × List ℚ)

/-- The `i`-th value column of the table. -/
def column (t : Table) (i : ℕ) : List ℚ :=
  t.rows.map (fun r => r.2.getD i 0)

/-- The dates of the table, in row order. -/
def tDates (t : Table) : List Date := t.rows.map Prod.fst

/-- The `date_str` column: each date formatted `%Y%m%d`, in row order. -/
def dateStrs (t : Table) : List String := t.rows.map (fun r => fmtCompact r.1)

/-- The `statistics` block computed for one maturity from the `date_str`
column and the value column, exactly as in the source: extrema by
`max`/`idxmax` and `min`/`idxmin`, `mean`/`median` rounded to 4 places,
`var(ddof=0)` rounded to 6, `std(ddof=0)` rounded to 4, and
`quantile(0.25)`/`quantile(0.75)` rounded to 4. -/
noncomputable def statsOf (dates : List String) (vals : List ℚ) : Stats :=
  { max := { value := seriesMax vals, date := dates.getD (idxmaxFirst vals) "" }
    min := { value := seriesMin vals, date := dates.getD (idxminFirst vals) "" }
    mean := roundTo 4 (seriesMean vals)
    median := roundTo 4 (seriesMedian vals)
    variance := roundTo 6 (seriesVar 0 vals)
    std_dev := roundTo 4 (seriesStd 0 vals)
    quantiles := { q1 := roundTo 4 (quantileLinear (1/4) vals)
                   q3 := roundTo 4 (quantileLinear (3/4) vals) } }

/-- The `series` entry for one maturity: `daily_data` pairing each
formatted date with its value in row order, plus the statistics block. -/
noncomputable def seriesEntry (dates : List String) (vals : List ℚ) : SeriesEntry :=
  { daily_data := (dates.zip vals).map (fun p => { date := p.1, yield := p.2 })
    statistics := statsOf dates vals }

/-- The `analysis` block: one correlation entry per index pair `i < j`
over the term columns, in the order of the source's nested loops, keyed
by the two term labels joined with an underscore. -/
noncomputable def buildAnalysis (t : Table) : Analysis :=
  { correlation :=
      (List.range t.terms.length).flatMap (fun i =>
        ((List.range t.terms.length).drop (i + 1)).map (fun j =>
          (t.terms.getD i "" ++ "_" ++ t.terms.getD j "",
           corrValue (column t i) (column t j)))) }

/-- `format_bond_curve_data`: derive the time range from the minimum and
maximum date (this is the step that fails on an empty table: `min()` of
an empty datetime column is `NaT` and `NaT.strftime` raises), build one
series entry per term column, and attach the correlation analysis when
there is more than one term column. -/
noncomputable def format_bond_curve_data (curve_name : String) (t : Table) :
    Except String Report :=
  match (tDates t).argmin dateKey, (tDates t).argmax dateKey with
  | some dmin, some dmax =>
      .ok { metadata := { curve_name := curve_name
                          time_range := [fmtDash dmin, fmtDash dmax]
                          currency := "CNY" }
            series := t.terms.enum.map (fun p =>
              (p.2, seriesEntry (dateStrs t) (column t p.1)))
            analysis := if 1 < t.terms.length then some (buildAnalysis t) else none }
  | _, _ => .error "NaTType does not support strftime"

/-- One row of the provider's full table, across all curves. -/
structure RawRow where
  curve : String
  date : Date
  value : String → ℚ

/-- The provider's full table (`ak.bond_china_yield(...)`). -/
structure RawTable where
  rows : List RawRow

/-- The outcome of the provider call: a table, or a raised exception. -/
inductive FetchResult where
  | ok (t : RawTable)
  | exn (msg : String)

/-- The dictionary returned by the operation: a report, or the flat
single-key error shape. -/
inductive OpResult where
  | error (msg : String)
  | report (r : Report)

/-- The admissible curve names. -/
def curveNames : List String :=
  ["中债国债收益率曲线", "中债中短期票据收益率曲线(AAA)", "中债商业银行普通债收益率曲线(AAA)"]

/-- The admissible maturity labels. -/
def termNames : List String :=
  ["3月", "6月", "1年", "3年", "5年", "7年", "10年", "30年"]

/-- `term_list` may be a single label or a list of labels; a single
label is wrapped into a one-element list. -/
def normalizeTerms : Sum String (List String) → List String
  | .inl s => [s]
  | .inr l => l

/-- The three `assert` checks, in source order: known curve name, every
term a known label, and the AAA short-term curve never combined with the
30-year maturity. -/
def validParams (curve : String) (terms : List String) : Bool :=
  decide (curve ∈ curveNames)
    && terms.all (fun tm => decide (tm ∈ termNames))
    && !(curve == "中债中短期票据收益率曲线(AAA)" && terms.contains "30年")

/-- Restrict the provider table to the rows of the requested curve and
the requested term columns (plus the date column). -/
def filterTable (raw : RawTable) (curve : String) (terms : List String) : Table :=
  { terms := terms
    rows := (raw.rows.filter (fun r => r.curve == curve)).map
      (fun r => (r.date, terms.map r.value)) }

/-- `get_china_bond_curve`: assert the parameter preconditions (an
`Except.error ()` is an assertion failure escaping the operation), then
inside the `try` block: a provider exception or any downstream exception
becomes the generic error report, an empty provider table becomes the
dedicated no-data error report, and otherwise the filtered table is
formatted. -/
noncomputable def get_china_bond_curve (curve : String)
    (termsIn : Sum String (List String)) (start_date end_date : String)
    (fetch : FetchResult) : Except Unit OpResult :=
  let terms := normalizeTerms termsIn
  if validParams curve terms then
    .ok (match fetch with
      | .exn m => OpResult.error ("Failed to retrieve data: " ++ m)
      | .ok raw =>
        if raw.rows.isEmpty then
          OpResult.error ("No data available for the specified date range: "
            ++ start_date ++ " to " ++ end_date)
        else
          match format_bond_curve_data curve (filterTable raw curve terms) with
          | .ok rpt => OpResult.report rpt
          | .error m => OpResult.error ("Failed to retrieve data: " ++ m))
  else
    .error ()

/-- Spec-side definition: population variance, the sum of squared
deviations divided by `N` (not `N - 1`). -/
def popVariance (l : List ℚ) : ℚ := sqDevSum l / (l.length : ℚ)

/-- Spec-side definition: population standard deviation, the square root
of the population variance. -/
noncomputable def popStdDev (l : List ℚ) : ℝ :=
  Real.sqrt ((popVariance l : ℚ) : ℝ)

/-- Spec-side definition: the `p`-th percentile under the
linear-interpolation method. -/
def percentile (p : ℚ) (l : List ℚ) : ℚ := quantileLinear (p / 100) l

/-- The table restricted to the two value columns `i` and `j`. -/
def pairTable (t : Table) (i j : ℕ) : Table :=
  { terms := [t.terms.getD i "", t.terms.getD j ""]
    rows := t.rows.map (fun r => (r.1, [r.2.getD i 0, r.2.getD j 0])) }

theorem seriesMax_mem_le (l : List ℚ) (h : l ≠ []) :
    seriesMax l ∈ l ∧ ∀ y ∈ l, y ≤ seriesMax l := by
  cases hm : l.max? with
  | none => exact absurd (List.max?_eq_none_iff.mp hm) h
  | some m =>
    have h1 : m ∈ l := List.max?_mem max_choice hm
    have h2 : ∀ y ∈ l, y ≤ m :=
      (List.max?_le_iff (fun a b c => max_le_iff) hm).mp (le_refl m)
    simpa [seriesMax, hm] using ⟨h1, h2⟩

theorem seriesMin_mem_le (l : List ℚ) (h : l ≠ []) :
    seriesMin l ∈ l ∧ ∀ y ∈ l, seriesMin l ≤ y := by
  cases hm : l.min? with
  | none => exact absurd (List.min?_eq_none_iff.mp hm) h
  | some m =>
    have h1 : m ∈ l := List.min?_mem min_choice hm
    have h2 : ∀ y ∈ l, m ≤ y :=
      (List.le_min?_iff (fun a b c => le_min_iff) hm).mp (le_refl m)
    simpa [seriesMin, hm] using ⟨h1, h2⟩

theorem idxmaxFirst_spec (l : List ℚ) (h : l ≠ []) :
    idxmaxFirst l < l.length ∧ l.getD (idxmaxFirst l) 0 = seriesMax l ∧
      ∀ j, j < idxmaxFirst l → l.getD j 0 < l.getD (idxmaxFirst l) 0 := by
  obtain ⟨hmem, hub⟩ := seriesMax_mem_le l h
  have hex : ∃ x ∈ l, isMaxIn l x = true :=
    ⟨seriesMax l, hmem, by simpa [isMaxIn] using hub⟩
  have hlt : l.findIdx (isMaxIn l) < l.length := List.findIdx_lt_length_of_exists hex
  have hpi : isMaxIn l (l[l.findIdx (isMaxIn l)]) = true :=
    @List.findIdx_getElem _ (isMaxIn l) l hlt
  have hmaxi : ∀ y ∈ l, y ≤ l[l.findIdx (isMaxIn l)] := by simpa [isMaxIn] using hpi
  have heq : l[l.findIdx (isMaxIn l)] = seriesMax l :=
    le_antisymm (hub _ (List.getElem_mem hlt)) (hmaxi _ hmem)
  have hidx : idxmaxFirst l = l.findIdx (isMaxIn l) := rfl
  refine ⟨hidx ▸ hlt, ?_, ?_⟩
  · rw [hidx, List.getD_eq_getElem l 0 hlt, heq]
  · intro j hj
    rw [hidx] at hj ⊢
    have hjl : j < l.length := lt_trans hj hlt
    have hpj : isMaxIn l (l[j]) = false := List.not_of_lt_findIdx hj
    have hnot : ¬ ∀ y ∈ l, y ≤ l[j] := by simpa [isMaxIn] using hpj
    push_neg at hnot
    obtain ⟨y, hy, hylt⟩ := hnot
    rw [List.getD_eq_getElem l 0 hjl, List.getD_eq_getElem l 0 hlt]
    exact lt_of_lt_of_le hylt (hmaxi _ hy)

theorem idxminFirst_spec (l : List ℚ) (h : l ≠ []) :
    idxminFirst l < l.length ∧ l.getD (idxminFirst l) 0 = seriesMin l ∧
      ∀ j, j < idxminFirst l → l.getD (idxminFirst l) 0 < l.getD j 0 := by
  obtain ⟨hmem, hlb⟩ := seriesMin_mem_le l h
  have hex : ∃ x ∈ l, isMinIn l x = true :=
    ⟨seriesMin l, hmem, by simpa [isMinIn] using hlb⟩
  have hlt : l.findIdx (isMinIn l) < l.length := List.findIdx_lt_length_of_exists hex
  have hpi : isMinIn l (l[l.findIdx (isMinIn l)]) = true :=
    @List.findIdx_getElem _ (isMinIn l) l hlt
  have hmini : ∀ y ∈ l, l[l.findIdx (isMinIn l)] ≤ y := by simpa [isMinIn] using hpi
  have heq : l[l.findIdx (isMinIn l)] = seriesMin l :=
    le_antisymm (hmini _ hmem) (hlb _ (List.getElem_mem hlt))
  have hidx : idxminFirst l = l.findIdx (isMinIn l) := rfl
  refine ⟨hidx ▸ hlt, ?_, ?_⟩
  · rw [hidx, List.getD_eq_getElem l 0 hlt, heq]
  · intro j hj
    rw [hidx] at hj ⊢
    have hjl : j < l.length := lt_trans hj hlt
    have hpj : isMinIn l (l[j]) = false := List.not_of_lt_findIdx hj
    have hnot : ¬ ∀ y ∈ l, l[j] ≤ y := by simpa [isMinIn] using hpj
    push_neg at hnot
    obtain ⟨y, hy, hylt⟩ := hnot
    rw [List.getD_eq_getElem l 0 hjl, List.getD_eq_getElem l 0 hlt]
    exact lt_of_le_of_lt (hmini _ hy) hylt

/-- C1: for every non-empty value column, the statistics block carries
the mean and the median rounded to 4 decimal places, the population
variance (divide by N, not N-1) rounded to 6 decimal places, the
population standard deviation rounded to 4 decimal places, and the 25th
and 75th percentiles under the linear-interpolation method rounded to 4
decimal places; each of these is a function of the value column alone
(the right-hand sides depend only on `vals`). -/
theorem C1_statistics_definitions (dates : List String) (vals : List ℚ)
    (h : vals ≠ []) :
    (statsOf dates vals).mean = roundTo 4 (seriesMean vals) ∧
    (statsOf dates vals).median = roundTo 4 (seriesMedian vals) ∧
    (statsOf dates vals).variance = roundTo 6 (popVariance vals) ∧
    (statsOf dates vals).std_dev = roundTo 4 (popStdDev vals) ∧
    (statsOf dates vals).quantiles.q1 = roundTo 4 (percentile 25 vals) ∧
    (statsOf dates vals).quantiles.q3 = roundTo 4 (percentile 75 vals) := by
  have hvar : seriesVar 0 vals = popVariance vals := by
    simp [seriesVar, popVariance]
  have hq1 : percentile 25 vals = quantileLinear (1/4) vals := by
    have : (25 : ℚ) / 100 = 1/4 := by norm_num
    rw [percentile, this]
  have hq3 : percentile 75 vals = quantileLinear (3/4) vals := by
    have : (75 : ℚ) / 100 = 3/4 := by norm_num
    rw [percentile, this]
  refine ⟨rfl, rfl, ?_, ?_, ?_, ?_⟩
  · show roundTo 6 (seriesVar 0 vals) = roundTo 6 (popVariance vals)
    rw [hvar]
  · show roundTo 4 (seriesStd 0 vals) = roundTo 4 (popStdDev vals)
    rw [seriesStd, popStdDev, hvar]
  · show roundTo 4 (quantileLinear (1/4) vals) = roundTo 4 (percentile 25 vals)
    rw [hq1]
  · show roundTo 4 (quantileLinear (3/4) vals) = roundTo 4 (percentile 75 vals)
    rw [hq3]

theorem C1_statistics_definitions_witness :
    ([(16077 : ℚ)/10000, 16041/10000] ≠ []) ∧
    ((statsOf ["20250102", "20250103"] [(16077 : ℚ)/10000, 16041/10000]).mean
        = roundTo 4 (seriesMean [(16077 : ℚ)/10000, 16041/10000]) ∧
      (statsOf ["20250102", "20250103"] [(16077 : ℚ)/10000, 16041/10000]).median
        = roundTo 4 (seriesMedian [(16077 : ℚ)/10000, 16041/10000]) ∧
      (statsOf ["20250102", "20250103"] [(16077 : ℚ)/10000, 16041/10000]).variance
        = roundTo 6 (popVariance [(16077 : ℚ)/10000, 16041/10000]) ∧
      (statsOf ["20250102", "20250103"] [(16077 : ℚ)/10000, 16041/10000]).std_dev
        = roundTo 4 (popStdDev [(16077 : ℚ)/10000, 16041/10000]) ∧
      (statsOf ["20250102", "20250103"] [(16077 : ℚ)/10000, 16041/10000]).quantiles.q1
        = roundTo 4 (percentile 25 [(16077 : ℚ)/10000, 16041/10000]) ∧
      (statsOf ["20250102", "20250103"] [(16077 : ℚ)/10000, 16041/10000]).quantiles.q3
        = roundTo 4 (percentile 75 [(16077 : ℚ)/10000, 16041/10000])) :=
  ⟨by decide, C1_statistics_definitions ["20250102", "20250103"]
    [(16077 : ℚ)/10000, 16041/10000] (by decide)⟩

/-- C2: for every non-empty value column (aligned with the date-string
column), the reported max and min each consist of the extreme value
together with the date string at the row where that extreme first occurs
in table order: at the reported index the value is the extremum, and
every strictly earlier row has a strictly smaller (resp. larger)
value, so under ties the earliest row wins. -/
theorem C2_extrema_first_occurrence (dates : List String) (vals : List ℚ)
    (h : vals ≠ []) (hlen : dates.length = vals.length) :
    ∃ imax imin, imax < vals.length ∧ imin < vals.length ∧
      (statsOf dates vals).max.value = vals.getD imax 0 ∧
      (statsOf dates vals).max.date = dates.getD imax "" ∧
      (∀ y ∈ vals, y ≤ vals.getD imax 0) ∧
      (∀ j, j < imax → vals.getD j 0 < vals.getD imax 0) ∧
      (statsOf dates vals).min.value = vals.getD imin 0 ∧
      (statsOf dates vals).min.date = dates.getD imin "" ∧
      (∀ y ∈ vals, vals.getD imin 0 ≤ y) ∧
      (∀ j, j < imin → vals.getD imin 0 < vals.getD j 0) := by
  obtain ⟨hxl, hxv, hxf⟩ := idxmaxFirst_spec vals h
  obtain ⟨hnl, hnv, hnf⟩ := idxminFirst_spec vals h
  obtain ⟨hmem, hub⟩ := seriesMax_mem_le vals h
  obtain ⟨hmem2, hlb⟩ := seriesMin_mem_le vals h
  refine ⟨idxmaxFirst vals, idxminFirst vals, hxl, hnl, hxv.symm, rfl, ?_, hxf,
    hnv.symm, rfl, ?_, hnf⟩
  · intro y hy
    rw [hxv]
    exact hub y hy
  · intro y hy
    rw [hnv]
    exact hlb y hy

theorem C2_extrema_first_occurrence_witness :
    (([(5 : ℚ), 3, 5] : List ℚ) ≠ [] ∧
      (["20250102", "20250103", "20250104"] : List String).length
        = ([(5 : ℚ), 3, 5] : List ℚ).length) ∧
    (∃ imax imin, imax < ([(5 : ℚ), 3, 5] : List ℚ).length ∧
      imin < ([(5 : ℚ), 3, 5] : List ℚ).length ∧
      (statsOf ["20250102", "20250103", "20250104"] [(5 : ℚ), 3, 5]).max.value
        = ([(5 : ℚ), 3, 5] : List ℚ).getD imax 0 ∧
      (statsOf ["20250102", "20250103", "20250104"] [(5 : ℚ), 3, 5]).max.date
        = (["20250102", "20250103", "20250104"] : List String).getD imax "" ∧
      (∀ y ∈ ([(5 : ℚ), 3, 5] : List ℚ), y ≤ ([(5 : ℚ), 3, 5] : List ℚ).getD imax 0) ∧
      (∀ j, j < imax →
        ([(5 : ℚ), 3, 5] : List ℚ).getD j 0 < ([(5 : ℚ), 3, 5] : List ℚ).getD imax 0) ∧
      (statsOf ["20250102", "20250103", "20250104"] [(5 : ℚ), 3, 5]).min.value
        = ([(5 : ℚ), 3, 5] : List ℚ).getD imin 0 ∧
      (statsOf ["20250102", "20250103", "20250104"] [(5 : ℚ), 3, 5]).min.date
        = (["20250102", "20250103", "20250104"] : List String).getD imin "" ∧
      (∀ y ∈ ([(5 : ℚ), 3, 5] : List ℚ), ([(5 : ℚ), 3, 5] : List ℚ).getD imin 0 ≤ y) ∧
      (∀ j, j < imin →
        ([(5 : ℚ), 3, 5] : List ℚ).getD imin 0 < ([(5 : ℚ), 3, 5] : List ℚ).getD j 0)) :=
  ⟨⟨by decide, by decide⟩,
    C2_extrema_first_occurrence ["20250102", "20250103", "20250104"]
      [(5 : ℚ), 3, 5] (by decide) (by decide)⟩

theorem format_ok_of_rows_ne_nil (c : String) (t : Table) (h : t.rows ≠ []) :
    ∃ dmin dmax, (tDates t).argmin dateKey = some dmin ∧
      (tDates t).argmax dateKey = some dmax ∧
      format_bond_curve_data c t = .ok
        { metadata := { curve_name := c
                        time_range := [fmtDash dmin, fmtDash dmax]
                        currency := "CNY" }
          series := t.terms.enum.map (fun p =>
            (p.2, seriesEntry (dateStrs t) (column t p.1)))
          analysis := if 1 < t.terms.length then some (buildAnalysis t) else none } := by
  have hd : tDates t ≠ [] := by simpa [tDates] using h
  cases hmin : (tDates t).argmin dateKey with
  | none => exact absurd (List.argmin_eq_none.mp hmin) hd
  | some dmin =>
    cases hmax : (tDates t).argmax dateKey with
    | none => exact absurd (List.argmax_eq_none.mp hmax) hd
    | some dmax =>
      exact ⟨dmin, dmax, rfl, rfl, by simp [format_bond_curve_data, hmin, hmax]⟩

theorem format_ok_series_keys (c : String) (t : Table) (r : Report)
    (h : format_bond_curve_data c t = .ok r) :
    r.series.map Prod.fst = t.terms := by
  unfold format_bond_curve_data at h
  split at h
  · cases h
    show (t.terms.enum.map (fun p =>
      (p.2, seriesEntry (dateStrs t) (column t p.1)))).map Prod.fst = t.terms
    rw [List.map_map]
    exact List.enumFrom_map_snd 0 t.terms
  · exact Except.noConfusion h

theorem fmtDash_ne_fmtCompact (d : Date) : fmtDash d ≠ fmtCompact d := by
  intro hEq
  have hlen := congrArg String.length hEq
  have hone : ("-" : String).length = 1 := by decide
  simp only [fmtDash, fmtCompact, String.length_append, hone] at hlen
  omega

theorem string_head_append (p q : String) (c : Char)
    (hp : p.data.head? = some c) : (p ++ q).data.head? = some c := by
  rw [String.data_append, List.head?_append, hp]
  rfl

theorem validParams_iff (c : String) (ts : List String) :
    validParams c ts = true ↔
      c ∈ curveNames ∧ (∀ tm ∈ ts, tm ∈ termNames) ∧
        ¬(c = "中债中短期票据收益率曲线(AAA)" ∧ "30年" ∈ ts) := by
  simp [validParams, List.all_eq_true, and_assoc]
  intro _ _
  tauto

/-- C3: a formatted report contains the `analysis` key if and only if
the number of value columns exceeds one; with one column the field is
`none` (entirely absent), with two or more it is `some` (present, and it
carries the correlation mapping by construction of `buildAnalysis`). -/
theorem C3_analysis_iff_multiple (c : String) (t : Table) (h : t.rows ≠ []) :
    ∃ r, format_bond_curve_data c t = .ok r ∧
      (r.analysis.isSome ↔ 1 < t.terms.length) := by
  obtain ⟨dmin, dmax, _hmin, _hmax, hfmt⟩ := format_ok_of_rows_ne_nil c t h
  refine ⟨_, hfmt, ?_⟩
  by_cases hl : 1 < t.terms.length <;> simp [hl]

theorem C3_analysis_iff_multiple_witness :
    ∃ r, format_bond_curve_data "中债国债收益率曲线"
        (⟨["10年"], [(⟨2025, 1, 2⟩, [1]), (⟨2025, 1, 3⟩, [2])]⟩ : Table) = .ok r ∧
      (r.analysis.isSome ↔
        1 < (⟨["10年"], [(⟨2025, 1, 2⟩, [1]), (⟨2025, 1, 3⟩, [2])]⟩ : Table).terms.length) :=
  C3_analysis_iff_multiple "中债国债收益率曲线"
    (⟨["10年"], [(⟨2025, 1, 2⟩, [1]), (⟨2025, 1, 3⟩, [2])]⟩ : Table) (by simp)

/-- C9: whenever the formatter succeeds, the `currency` field of the
metadata is the constant string "CNY", independent of the curve name and
the table. -/
theorem C9_currency_constant (c : String) (t : Table) :
    (match format_bond_curve_data c t with
      | .ok r => r.metadata.currency = "CNY"
      | .error _ => True) := by
  cases hmin : (tDates t).argmin dateKey <;>
    cases hmax : (tDates t).argmax dateKey <;>
      simp [format_bond_curve_data, hmin, hmax]

/-- C6: for every non-empty table, the report's `metadata.time_range` is
the two-element list of the minimum and maximum table date in the
dashed `YYYY-MM-DD` format, every `daily_data` date is a table date in
the compact `YYYYMMDD` format, and the two formats always differ. -/
theorem C6_time_range_formats (c : String) (t : Table) (h : t.rows ≠ []) :
    ∃ r dmin dmax, format_bond_curve_data c t = .ok r ∧
      dmin ∈ tDates t ∧ dmax ∈ tDates t ∧
      (∀ d ∈ tDates t, dateKey dmin ≤ dateKey d ∧ dateKey d ≤ dateKey dmax) ∧
      r.metadata.time_range = [fmtDash dmin, fmtDash dmax] ∧
      (∀ nm e, (nm, e) ∈ r.series → ∀ p ∈ e.daily_data,
        ∃ d ∈ tDates t, p.date = fmtCompact d) ∧
      (∀ d0 : Date, fmtDash d0 ≠ fmtCompact d0) := by
  obtain ⟨dmin, dmax, hmin, hmax, hfmt⟩ := format_ok_of_rows_ne_nil c t h
  refine ⟨_, dmin, dmax, hfmt, List.argmin_mem hmin, List.argmax_mem hmax,
    fun d hd => ⟨List.le_of_mem_argmin hd hmin, List.le_of_mem_argmax hd hmax⟩,
    rfl, ?_, fun d0 => fmtDash_ne_fmtCompact d0⟩
  intro nm e hmem p hp
  simp only [List.mem_map] at hmem
  obtain ⟨q, _hq, hqe⟩ := hmem
  have he : e = seriesEntry (dateStrs t) (column t q.1) := (congrArg Prod.snd hqe).symm
  rw [he] at hp
  simp only [seriesEntry, List.mem_map] at hp
  obtain ⟨pr, hpr, hprd⟩ := hp
  have hfst : pr.1 ∈ dateStrs t := by
    obtain ⟨h1, _⟩ := List.of_mem_zip (a := pr.1) (b := pr.2) (by simpa using hpr)
    exact h1
  simp only [dateStrs, List.mem_map] at hfst
  obtain ⟨row, hrow, hrowd⟩ := hfst
  refine ⟨row.1, ?_, ?_⟩
  · exact List.mem_map.mpr ⟨row, hrow, rfl⟩
  · rw [← hprd, ← hrowd]

theorem C6_time_range_formats_witness :
    ∃ r dmin dmax,
      format_bond_curve_data "中债国债收益率曲线"
        (⟨["10年"], [(⟨2025, 1, 2⟩, [1]), (⟨2025, 1, 3⟩, [2])]⟩ : Table) = .ok r ∧
      dmin ∈ tDates (⟨["10年"], [(⟨2025, 1, 2⟩, [1]), (⟨2025, 1, 3⟩, [2])]⟩ : Table) ∧
      dmax ∈ tDates (⟨["10年"], [(⟨2025, 1, 2⟩, [1]), (⟨2025, 1, 3⟩, [2])]⟩ : Table) ∧
      (∀ d ∈ tDates (⟨["10年"], [(⟨2025, 1, 2⟩, [1]), (⟨2025, 1, 3⟩, [2])]⟩ : Table),
        dateKey dmin ≤ dateKey d ∧ dateKey d ≤ dateKey dmax) ∧
      r.metadata.time_range = [fmtDash dmin, fmtDash dmax] ∧
      (∀ nm e, (nm, e) ∈ r.series → ∀ p ∈ e.daily_data,
        ∃ d ∈ tDates (⟨["10年"], [(⟨2025, 1, 2⟩, [1]), (⟨2025, 1, 3⟩, [2])]⟩ : Table),
          p.date = fmtCompact d) ∧
      (∀ d0 : Date, fmtDash d0 ≠ fmtCompact d0) :=
  C6_time_range_formats "中债国债收益率曲线"
    (⟨["10年"], [(⟨2025, 1, 2⟩, [1]), (⟨2025, 1, 3⟩, [2])]⟩ : Table) (by simp)

/-- C7: for validated parameters the operation is total and two-valued:
the result is either a flat error value or a complete report whose
series has exactly one entry per requested maturity, in order; moreover
a provider exception yields the generic error message and an empty
provider table yields the dedicated no-data error message. -/
theorem C7_error_or_complete_report (curve : String)
    (termsIn : Sum String (List String)) (sd ed : String) (fetch : FetchResult)
    (hv : validParams curve (normalizeTerms termsIn) = true) :
    ((∃ m, get_china_bond_curve curve termsIn sd ed fetch = .ok (OpResult.error m)) ∨
      (∃ rpt, get_china_bond_curve curve termsIn sd ed fetch
          = .ok (OpResult.report rpt) ∧
        rpt.series.map Prod.fst = normalizeTerms termsIn)) ∧
    (∀ m, fetch = FetchResult.exn m →
      get_china_bond_curve curve termsIn sd ed fetch
        = .ok (OpResult.error ("Failed to retrieve data: " ++ m))) ∧
    (∀ raw, fetch = FetchResult.ok raw → raw.rows = [] →
      get_china_bond_curve curve termsIn sd ed fetch
        = .ok (OpResult.error ("No data available for the specified date range: "
            ++ sd ++ " to " ++ ed))) := by
  refine ⟨?_, ?_, ?_⟩
  · cases fetch with
    | exn m =>
      exact Or.inl ⟨"Failed to retrieve data: " ++ m,
        by simp [get_china_bond_curve, hv]⟩
    | ok raw =>
      by_cases hemp : raw.rows = []
      · exact Or.inl ⟨"No data available for the specified date range: "
          ++ sd ++ " to " ++ ed, by simp [get_china_bond_curve, hv, hemp]⟩
      · have hne : raw.rows.isEmpty = false := List.isEmpty_eq_false.mpr hemp
        cases hf : format_bond_curve_data curve
            (filterTable raw curve (normalizeTerms termsIn)) with
        | error m =>
          exact Or.inl ⟨"Failed to retrieve data: " ++ m,
            by simp [get_china_bond_curve, hv, hne, hf]⟩
        | ok rpt =>
          refine Or.inr ⟨rpt, by simp [get_china_bond_curve, hv, hne, hf], ?_⟩
          have hk := format_ok_series_keys _ _ _ hf
          simpa [filterTable] using hk
  · rintro m rfl
    simp [get_china_bond_curve, hv]
  · rintro raw rfl hemp
    simp [get_china_bond_curve, hv, hemp]

theorem C7_error_or_complete_report_witness :
    ((∃ m, get_china_bond_curve "中债国债收益率曲线" (Sum.inl "10年")
        "20250101" "20250105" (FetchResult.exn "boom") = .ok (OpResult.error m)) ∨
      (∃ rpt, get_china_bond_curve "中债国债收益率曲线" (Sum.inl "10年")
          "20250101" "20250105" (FetchResult.exn "boom") = .ok (OpResult.report rpt) ∧
        rpt.series.map Prod.fst = normalizeTerms (Sum.inl "10年"))) ∧
    (∀ m, FetchResult.exn "boom" = FetchResult.exn m →
      get_china_bond_curve "中债国债收益率曲线" (Sum.inl "10年")
        "20250101" "20250105" (FetchResult.exn "boom")
        = .ok (OpResult.error ("Failed to retrieve data: " ++ m))) ∧
    (∀ raw, FetchResult.exn "boom" = FetchResult.ok raw → raw.rows = [] →
      get_china_bond_curve "中债国债收益率曲线" (Sum.inl "10年")
        "20250101" "20250105" (FetchResult.exn "boom")
        = .ok (OpResult.error ("No data available for the specified date range: "
            ++ "20250101" ++ " to " ++ "20250105"))) :=
  C7_error_or_complete_report "中债国债收益率曲线" (Sum.inl "10年")
    "20250101" "20250105" (FetchResult.exn "boom") (by decide)

/-- C8: an unknown curve name, an unknown maturity label, or the
disallowed AAA-curve/30-year combination makes the operation halt with
an assertion failure (`Except.error ()`), for every provider outcome —
so the failure precedes any data retrieval or formatting and is never
converted into a recoverable `OpResult.error` report. -/
theorem C8_validation_halts (curve : String) (termsIn : Sum String (List String))
    (hbad : curve ∉ curveNames ∨
      (∃ tm ∈ normalizeTerms termsIn, tm ∉ termNames) ∨
      (curve = "中债中短期票据收益率曲线(AAA)" ∧ "30年" ∈ normalizeTerms termsIn)) :
    ∀ sd ed fetch, get_china_bond_curve curve termsIn sd ed fetch = .error () := by
  intro sd ed fetch
  have hv : ¬ validParams curve (normalizeTerms termsIn) = true := by
    rw [validParams_iff]
    rintro ⟨h1, h2, h3⟩
    rcases hbad with h | ⟨tm, htm, hn⟩ | h
    · exact h h1
    · exact hn (h2 tm htm)
    · exact h3 h
  have hv2 : validParams curve (normalizeTerms termsIn) = false :=
    Bool.eq_false_iff.mpr hv
  simp [get_china_bond_curve, hv2]

theorem C8_validation_halts_witness :
    (("国债X" : String) ∉ curveNames ∨
      (∃ tm ∈ normalizeTerms (Sum.inl "10年"), tm ∉ termNames) ∨
      (("国债X" : String) = "中债中短期票据收益率曲线(AAA)" ∧
        "30年" ∈ normalizeTerms (Sum.inl "10年"))) ∧
    (∀ sd ed fetch,
      get_china_bond_curve "国债X" (Sum.inl "10年") sd ed fetch = .error ()) :=
  ⟨Or.inl (by decide),
    C8_validation_halts "国债X" (Sum.inl "10年") (Or.inl (by decide))⟩

/-- C10: if the provider table is non-empty but no row matches the
requested curve name, the operation does not return the dedicated
no-data message (the empty-table check ran on the unfiltered table); it
still returns an error report, namely the generic retrieve-failure
message produced by the exception path when `strftime` is applied to
the `NaT` minimum of the empty filtered date column. -/
theorem C10_empty_filter_generic_error (curve : String)
    (termsIn : Sum String (List String)) (sd ed : String) (raw : RawTable)
    (hv : validParams curve (normalizeTerms termsIn) = true)
    (hraw : raw.rows ≠ [])
    (hfilter : raw.rows.filter (fun r => r.curve == curve) = []) :
    get_china_bond_curve curve termsIn sd ed (FetchResult.ok raw)
      = .ok (OpResult.error
          ("Failed to retrieve data: NaTType does not support strftime")) ∧
    ("Failed to retrieve data: NaTType does not support strftime"
      ≠ "No data available for the specified date range: "
          ++ sd ++ " to " ++ ed) := by
  constructor
  · have hne : raw.rows.isEmpty = false := List.isEmpty_eq_false.mpr hraw
    have hft : tDates (filterTable raw curve (normalizeTerms termsIn)) = [] := by
      simp [tDates, filterTable, hfilter]
    have hfmt : format_bond_curve_data curve
        (filterTable raw curve (normalizeTerms termsIn))
        = .error "NaTType does not support strftime" := by
      unfold format_bond_curve_data
      rw [hft]
      simp [List.argmin_nil, List.argmax_nil]
    simp [get_china_bond_curve, hv, hne, hfmt]
  · intro hstr
    have hF : ("Failed to retrieve data: NaTType does not support strftime"
        : String).data.head? = some 'F' := by decide
    have hN : (("No data available for the specified date range: "
        ++ sd ++ " to " ++ ed)).data.head? = some 'N' :=
      string_head_append _ _ _ (string_head_append _ _ _
        (string_head_append _ _ _ (by decide)))
    rw [hstr, hN] at hF
    exact absurd (Option.some.inj hF) (by decide)

theorem C10_empty_filter_generic_error_witness :
    (validParams "中债国债收益率曲线" (normalizeTerms (Sum.inl "10年")) = true ∧
      (RawTable.mk [⟨"别的曲线", ⟨2025, 1, 2⟩, fun _ => 0⟩]).rows ≠ [] ∧
      (RawTable.mk [⟨"别的曲线", ⟨2025, 1, 2⟩, fun _ => 0⟩]).rows.filter
        (fun r => r.curve == "中债国债收益率曲线") = []) ∧
    (get_china_bond_curve "中债国债收益率曲线" (Sum.inl "10年") "20250101" "20250105"
        (FetchResult.ok (RawTable.mk [⟨"别的曲线", ⟨2025, 1, 2⟩, fun _ => 0⟩]))
      = .ok (OpResult.error
          ("Failed to retrieve data: NaTType does not support strftime")) ∧
    ("Failed to retrieve data: NaTType does not support strftime"
      ≠ "No data available for the specified date range: "
          ++ "20250101" ++ " to " ++ "20250105")) :=
  ⟨⟨by decide, by simp, by simp [List.filter]⟩,
    C10_empty_filter_generic_error "中债国债收益率曲线" (Sum.inl "10年")
      "20250101" "20250105" (RawTable.mk [⟨"别的曲线", ⟨2025, 1, 2⟩, fun _ => 0⟩])
      (by decide) (by simp) (by simp [List.filter])⟩

theorem range_drop (n k : ℕ) : (List.range n).drop k = List.range' k (n - k) := by
  apply List.ext_getElem
  · simp
  · intro i h1 h2
    simp only [List.getElem_drop, List.getElem_range, List.getElem_range']
    omega

theorem mem_drop_range {n i j : ℕ} :
    j ∈ (List.range n).drop (i + 1) ↔ i + 1 ≤ j ∧ j < n := by
  rw [range_drop, List.mem_range'_1]
  omega

theorem append_underscore_inj {a c : List Char} (ha : '_' ∉ a) (hc : '_' ∉ c)
    {b d : List Char} (h : a ++ '_' :: b = c ++ '_' :: d) : a = c ∧ b = d := by
  induction a generalizing c with
  | nil =>
    cases c with
    | nil => simpa using h
    | cons y ys =>
      simp only [List.nil_append, List.cons_append, List.cons.injEq] at h
      exact absurd (h.1 ▸ List.mem_cons_self y ys) hc
  | cons x xs ih =>
    cases c with
    | nil =>
      simp only [List.nil_append, List.cons_append, List.cons.injEq] at h
      exact absurd (h.1 ▸ List.mem_cons_self x xs) ha
    | cons y ys =>
      simp only [List.cons_append, List.cons.injEq] at h
      obtain ⟨rfl, h2⟩ := h
      have hr := ih (fun hm => ha (List.mem_cons_of_mem _ hm))
        (fun hm => hc (List.mem_cons_of_mem _ hm)) h2
      exact ⟨by rw [hr.1], hr.2⟩

theorem key_inj {A B C D : String} (hA : '_' ∉ A.data) (hC : '_' ∉ C.data)
    (h : A ++ "_" ++ B = C ++ "_" ++ D) : A = C ∧ B = D := by
  have hd := congrArg String.data h
  have hu : ("_" : String).data = ['_'] := by decide
  simp only [String.data_append, hu] at hd
  rw [List.append_assoc, List.append_assoc, List.singleton_append,
    List.singleton_append] at hd
  obtain ⟨h1, h2⟩ := append_underscore_inj hA hC hd
  exact ⟨String.ext h1, String.ext h2⟩

theorem getD_underscore_free (t : Table) (hu : ∀ s ∈ t.terms, '_' ∉ s.data)
    (k : ℕ) : '_' ∉ (t.terms.getD k "").data := by
  by_cases hk : k < t.terms.length
  · rw [List.getD_eq_getElem _ _ hk]
    exact hu _ (List.getElem_mem hk)
  · rw [List.getD_eq_default _ _ (le_of_not_lt hk)]
    simp

theorem getD_terms_inj (t : Table) (hnd : t.terms.Nodup) {i j : ℕ}
    (hi : i < t.terms.length) (hj : j < t.terms.length)
    (h : t.terms.getD i "" = t.terms.getD j "") : i = j := by
  rw [List.getD_eq_getElem _ _ hi, List.getD_eq_getElem _ _ hj] at h
  exact (List.Nodup.getElem_inj_iff hnd).mp h

theorem mem_correlation_iff (t : Table) (kv : String × ℝ) :
    kv ∈ (buildAnalysis t).correlation ↔
      ∃ i j, i < j ∧ j < t.terms.length ∧
        kv = (t.terms.getD i "" ++ "_" ++ t.terms.getD j "",
              corrValue (column t i) (column t j)) := by
  simp only [buildAnalysis, List.mem_flatMap, List.mem_map, List.mem_range]
  constructor
  · rintro ⟨i, hi, j, hj, rfl⟩
    exact ⟨i, j, (mem_drop_range.mp hj).1, (mem_drop_range.mp hj).2, rfl⟩
  · rintro ⟨i, j, hij, hjn, rfl⟩
    exact ⟨i, lt_trans hij hjn, j, mem_drop_range.mpr ⟨hij, hjn⟩, rfl⟩

theorem length_flatMap_eq {α β : Type} (l : List α) (f : α → List β) :
    (l.flatMap f).length = (l.map (fun a => (f a).length)).sum := by
  induction l with
  | nil => rfl
  | cons a as ih => simp [List.flatMap_cons, ih]

theorem list_sum_map_range (f : ℕ → ℕ) (n : ℕ) :
    ((List.range n).map f).sum = ∑ k ∈ Finset.range n, f k := by
  induction n with
  | zero => simp
  | succ m ih =>
    rw [List.range_succ, List.map_append, List.sum_append, Finset.sum_range_succ, ih]
    simp

theorem correlation_length_mul_two (t : Table) :
    ((buildAnalysis t).correlation).length * 2
      = t.terms.length * (t.terms.length - 1) := by
  have h1 : ((buildAnalysis t).correlation).length
      = ((List.range t.terms.length).map
          (fun i => t.terms.length - (i + 1))).sum := by
    rw [buildAnalysis, length_flatMap_eq]
    simp
  rw [h1, list_sum_map_range]
  have h3 := Finset.sum_range_reflect (fun x => x) t.terms.length
  simp only at h3
  have h2 : ∑ k ∈ Finset.range t.terms.length, (t.terms.length - (k + 1))
      = ∑ k ∈ Finset.range t.terms.length, k := by
    calc ∑ k ∈ Finset.range t.terms.length, (t.terms.length - (k + 1))
        = ∑ k ∈ Finset.range t.terms.length, (t.terms.length - 1 - k) :=
          Finset.sum_congr rfl (fun i _ => by omega)
      _ = ∑ k ∈ Finset.range t.terms.length, k := h3
  rw [h2, Finset.sum_range_id_mul_two]

theorem mem_correlation_keys_iff (t : Table) (k : String) :
    k ∈ ((buildAnalysis t).correlation).map Prod.fst ↔
      ∃ i j, i < j ∧ j < t.terms.length ∧
        k = t.terms.getD i "" ++ "_" ++ t.terms.getD j "" := by
  rw [List.mem_map]
  constructor
  · rintro ⟨kv, hkv, rfl⟩
    obtain ⟨i, j, hij, hjn, rfl⟩ := (mem_correlation_iff t kv).mp hkv
    exact ⟨i, j, hij, hjn, rfl⟩
  · rintro ⟨i, j, hij, hjn, rfl⟩
    exact ⟨(t.terms.getD i "" ++ "_" ++ t.terms.getD j "",
        corrValue (column t i) (column t j)),
      (mem_correlation_iff t _).mpr ⟨i, j, hij, hjn, rfl⟩, rfl⟩

/-- C4: over `n` requested maturities with distinct, underscore-free
labels (`n ≥ 2`), the correlation mapping has exactly `n*(n-1)/2`
entries; for each pair with the first label preceding the second in
requested order the key "{A}_{B}" is present; the keys are pairwise
distinct; no reversed-pair key appears; and no self-pair key "{X}_{X}"
ever appears. -/
theorem C4_correlation_keys (t : Table) (hn : 1 < t.terms.length)
    (hnd : t.terms.Nodup) (hu : ∀ s ∈ t.terms, '_' ∉ s.data) :
    ((buildAnalysis t).correlation).length
        = t.terms.length * (t.terms.length - 1) / 2 ∧
    (∀ i j, i < j → j < t.terms.length →
      (t.terms.getD i "" ++ "_" ++ t.terms.getD j "")
        ∈ ((buildAnalysis t).correlation).map Prod.fst) ∧
    (((buildAnalysis t).correlation).map Prod.fst).Nodup ∧
    (∀ i j, i < j → j < t.terms.length →
      (t.terms.getD j "" ++ "_" ++ t.terms.getD i "")
        ∉ ((buildAnalysis t).correlation).map Prod.fst) ∧
    (∀ s : String, (s ++ "_" ++ s)
        ∉ ((buildAnalysis t).correlation).map Prod.fst) := by
  refine ⟨?_, ?_, ?_, ?_, ?_⟩
  · have h2 := correlation_length_mul_two t
    omega
  · intro i j hij hjn
    exact (mem_correlation_keys_iff t _).mpr ⟨i, j, hij, hjn, rfl⟩
  · have hkeys : ((buildAnalysis t).correlation).map Prod.fst
        = (List.range t.terms.length).flatMap (fun i =>
            ((List.range t.terms.length).drop (i + 1)).map
              (fun j => t.terms.getD i "" ++ "_" ++ t.terms.getD j "")) := by
      rw [buildAnalysis, List.map_flatMap]
      refine congrArg _ (funext fun i => ?_)
      rw [List.map_map]
      rfl
    rw [hkeys]
    apply List.nodup_flatMap.mpr
    refine ⟨?_, ?_⟩
    · intro i _hi
      apply List.Nodup.map_on ?_
        (List.Nodup.sublist (List.drop_sublist _ _) (List.nodup_range _))
      intro x hx y hy hxy
      have hxb := mem_drop_range.mp hx
      have hyb := mem_drop_range.mp hy
      obtain ⟨-, h2⟩ := key_inj (getD_underscore_free t hu i)
        (getD_underscore_free t hu i) hxy
      exact getD_terms_inj t hnd hxb.2 hyb.2 h2
    · apply List.Pairwise.imp_of_mem ?_ (List.pairwise_lt_range _)
      intro a b ha hb hab k hk1 hk2
      simp only [List.mem_map] at hk1 hk2
      obtain ⟨x, hx, rfl⟩ := hk1
      obtain ⟨y, _hy, hxy⟩ := hk2
      obtain ⟨h1, -⟩ := key_inj (getD_underscore_free t hu b)
        (getD_underscore_free t hu a) hxy
      have han := List.mem_range.mp ha
      have hbn := List.mem_range.mp hb
      exact absurd (getD_terms_inj t hnd hbn han h1) (ne_of_gt hab)
  · intro i j hij hjn hmem
    obtain ⟨i0, j0, hij0, hj0, heq⟩ := (mem_correlation_keys_iff t _).mp hmem
    obtain ⟨h1, h2⟩ := key_inj (getD_underscore_free t hu j)
      (getD_underscore_free t hu i0) heq
    have e1 : j = i0 := getD_terms_inj t hnd hjn (lt_trans hij0 hj0) h1
    have e2 : i = j0 := getD_terms_inj t hnd (lt_trans hij hjn) hj0 h2
    omega
  · intro s hmem
    obtain ⟨i0, j0, hij0, hj0, heq⟩ := (mem_correlation_keys_iff t _).mp hmem
    have hus : '_' ∉ s.data := by
      have hu0 : ("_" : String).data = ['_'] := by decide
      have h1c := congrArg (fun l => List.count '_' l) (congrArg String.data heq)
      simp only [String.data_append, hu0, List.count_append] at h1c
      have hz1 : List.count '_' (t.terms.getD i0 "").data = 0 :=
        List.count_eq_zero.mpr (getD_underscore_free t hu i0)
      have hz2 : List.count '_' (t.terms.getD j0 "").data = 0 :=
        List.count_eq_zero.mpr (getD_underscore_free t hu j0)
      have hone : List.count '_' (['_'] : List Char) = 1 := by decide
      rw [hz1, hz2, hone] at h1c
      have hzs : List.count '_' s.data = 0 := by omega
      exact List.count_eq_zero.mp hzs
    obtain ⟨h1, h2⟩ := key_inj hus (getD_underscore_free t hu i0) heq
    have : i0 = j0 := getD_terms_inj t hnd (lt_trans hij0 hj0) hj0 (h1.symm.trans h2)
    omega

theorem C4_correlation_keys_witness :
    (1 < (⟨["3年", "5年", "10年"],
        [(⟨2025, 1, 2⟩, [1, 2, 3]), (⟨2025, 1, 3⟩, [2, 3, 4])]⟩ : Table).terms.length ∧
      (⟨["3年", "5年", "10年"],
        [(⟨2025, 1, 2⟩, [1, 2, 3]), (⟨2025, 1, 3⟩, [2, 3, 4])]⟩ : Table).terms.Nodup ∧
      (∀ s ∈ (⟨["3年", "5年", "10年"],
        [(⟨2025, 1, 2⟩, [1, 2, 3]), (⟨2025, 1, 3⟩, [2, 3, 4])]⟩ : Table).terms,
        '_' ∉ s.data)) ∧
    (((buildAnalysis (⟨["3年", "5年", "10年"],
        [(⟨2025, 1, 2⟩, [1, 2, 3]), (⟨2025, 1, 3⟩, [2, 3, 4])]⟩ : Table)).correlation).length
        = 3 * (3 - 1) / 2 ∧
      (∀ i j, i < j → j < 3 →
        ((["3年", "5年", "10年"] : List String).getD i ""
            ++ "_" ++ (["3年", "5年", "10年"] : List String).getD j "")
          ∈ ((buildAnalysis (⟨["3年", "5年", "10年"],
            [(⟨2025, 1, 2⟩, [1, 2, 3]), (⟨2025, 1, 3⟩, [2, 3, 4])]⟩ : Table)).correlation).map
              Prod.fst) ∧
      (((buildAnalysis (⟨["3年", "5年", "10年"],
        [(⟨2025, 1, 2⟩, [1, 2, 3]), (⟨2025, 1, 3⟩, [2, 3, 4])]⟩ : Table)).correlation).map
          Prod.fst).Nodup ∧
      (∀ i j, i < j → j < 3 →
        ((["3年", "5年", "10年"] : List String).getD j ""
            ++ "_" ++ (["3年", "5年", "10年"] : List String).getD i "")
          ∉ ((buildAnalysis (⟨["3年", "5年", "10年"],
            [(⟨2025, 1, 2⟩, [1, 2, 3]), (⟨2025, 1, 3⟩, [2, 3, 4])]⟩ : Table)).correlation).map
              Prod.fst) ∧
      (∀ s : String, (s ++ "_" ++ s)
          ∉ ((buildAnalysis (⟨["3年", "5年", "10年"],
            [(⟨2025, 1, 2⟩, [1, 2, 3]), (⟨2025, 1, 3⟩, [2, 3, 4])]⟩ : Table)).correlation).map
              Prod.fst)) :=
  ⟨⟨by decide, by decide, by decide⟩,
    C4_correlation_keys
      (⟨["3年", "5年", "10年"], [(⟨2025, 1, 2⟩, [1, 2, 3]), (⟨2025, 1, 3⟩, [2, 3, 4])]⟩ : Table)
      (by decide) (by decide) (by decide)⟩

/-- C5: the coefficient stored under key "{A}_{B}" by the single
correlation-matrix pass equals the standalone pairwise Pearson
coefficient of the two columns alone, rounded to 3 decimals: the pair
(key, rounded pairwise Pearson of columns i and j) is the unique
correlation entry with that key, and restricting the table to just the
two columns yields the same coefficient, so other columns do not affect
it. -/
theorem C5_matrix_equals_pairwise (t : Table) (i j : ℕ) (hij : i < j)
    (hjn : j < t.terms.length) (hnd : t.terms.Nodup)
    (hu : ∀ s ∈ t.terms, '_' ∉ s.data) :
    (t.terms.getD i "" ++ "_" ++ t.terms.getD j "",
        roundTo 3 (pearson (column t i) (column t j)))
      ∈ (buildAnalysis t).correlation ∧
    (∀ v, (t.terms.getD i "" ++ "_" ++ t.terms.getD j "", v)
        ∈ (buildAnalysis t).correlation →
      v = roundTo 3 (pearson (column t i) (column t j))) ∧
    roundTo 3 (pearson (column t i) (column t j))
      = roundTo 3 (pearson (column (pairTable t i j) 0)
          (column (pairTable t i j) 1)) := by
  refine ⟨?_, ?_, ?_⟩
  · exact (mem_correlation_iff t _).mpr ⟨i, j, hij, hjn, rfl⟩
  · intro v hv
    obtain ⟨i0, j0, hij0, hj0, heq⟩ := (mem_correlation_iff t _).mp hv
    have hk := congrArg Prod.fst heq
    have hval := congrArg Prod.snd heq
    simp only at hk hval
    obtain ⟨h1, h2⟩ := key_inj (getD_underscore_free t hu i)
      (getD_underscore_free t hu i0) hk
    have e1 : i = i0 := getD_terms_inj t hnd (lt_trans hij hjn)
      (lt_trans hij0 hj0) h1
    have e2 : j = j0 := getD_terms_inj t hnd hjn hj0 h2
    subst e1
    subst e2
    exact hval
  · have hc0 : column (pairTable t i j) 0 = column t i := by
      simp [column, pairTable, List.map_map, Function.comp]
    have hc1 : column (pairTable t i j) 1 = column t j := by
      simp [column, pairTable, List.map_map, Function.comp]
    rw [hc0, hc1]

theorem C5_matrix_equals_pairwise_witness :
    ((0 : ℕ) < 1 ∧ 1 < (⟨["3年", "5年"],
        [(⟨2025, 1, 2⟩, [1, 2]), (⟨2025, 1, 3⟩, [2, 1])]⟩ : Table).terms.length ∧
      (⟨["3年", "5年"],
        [(⟨2025, 1, 2⟩, [1, 2]), (⟨2025, 1, 3⟩, [2, 1])]⟩ : Table).terms.Nodup ∧
      (∀ s ∈ (⟨["3年", "5年"],
        [(⟨2025, 1, 2⟩, [1, 2]), (⟨2025, 1, 3⟩, [2, 1])]⟩ : Table).terms,
        '_' ∉ s.data)) ∧
    (((⟨["3年", "5年"], [(⟨2025, 1, 2⟩, [1, 2]), (⟨2025, 1, 3⟩, [2, 1])]⟩ : Table).terms.getD 0 ""
        ++ "_" ++
        (⟨["3年", "5年"], [(⟨2025, 1, 2⟩, [1, 2]), (⟨2025, 1, 3⟩, [2, 1])]⟩ : Table).terms.getD 1 "",
        roundTo 3 (pearson
          (column (⟨["3年", "5年"], [(⟨2025, 1, 2⟩, [1, 2]), (⟨2025, 1, 3⟩, [2, 1])]⟩ : Table) 0)
          (column (⟨["3年", "5年"], [(⟨2025, 1, 2⟩, [1, 2]), (⟨2025, 1, 3⟩, [2, 1])]⟩ : Table) 1)))
      ∈ (buildAnalysis
          (⟨["3年", "5年"], [(⟨2025, 1, 2⟩, [1, 2]), (⟨2025, 1, 3⟩, [2, 1])]⟩ : Table)).correlation ∧
    (∀ v, ((⟨["3年", "5年"], [(⟨2025, 1, 2⟩, [1, 2]), (⟨2025, 1, 3⟩, [2, 1])]⟩ : Table).terms.getD 0 ""
        ++ "_" ++
        (⟨["3年", "5年"], [(⟨2025, 1, 2⟩, [1, 2]), (⟨2025, 1, 3⟩, [2, 1])]⟩ : Table).terms.getD 1 "", v)
        ∈ (buildAnalysis
          (⟨["3年", "5年"], [(⟨2025, 1, 2⟩, [1, 2]), (⟨2025, 1, 3⟩, [2, 1])]⟩ : Table)).correlation →
      v = roundTo 3 (pearson
          (column (⟨["3年", "5年"], [(⟨2025, 1, 2⟩, [1, 2]), (⟨2025, 1, 3⟩, [2, 1])]⟩ : Table) 0)
          (column (⟨["3年", "5年"], [(⟨2025, 1, 2⟩, [1, 2]), (⟨2025, 1, 3⟩, [2, 1])]⟩ : Table) 1))) ∧
    roundTo 3 (pearson
        (column (⟨["3年", "5年"], [(⟨2025, 1, 2⟩, [1, 2]), (⟨2025, 1, 3⟩, [2, 1])]⟩ : Table) 0)
        (column (⟨["3年", "5年"], [(⟨2025, 1, 2⟩, [1, 2]), (⟨2025, 1, 3⟩, [2, 1])]⟩ : Table) 1))
      = roundTo 3 (pearson
          (column (pairTable
            (⟨["3年", "5年"], [(⟨2025, 1, 2⟩, [1, 2]), (⟨2025, 1, 3⟩, [2, 1])]⟩ : Table) 0 1) 0)
          (column (pairTable
            (⟨["3年", "5年"], [(⟨2025, 1, 2⟩, [1, 2]), (⟨2025, 1, 3⟩, [2, 1])]⟩ : Table) 0 1) 1))) :=
  ⟨⟨by decide, by decide, by decide, by decide⟩,
    C5_matrix_equals_pairwise
      (⟨["3年", "5年"], [(⟨2025, 1, 2⟩, [1, 2]), (⟨2025, 1, 3⟩, [2, 1])]⟩ : Table)
      0 1 (by decide) (by decide) (by decide) (by decide)⟩

end BondMCP
